import Mathlib

/-!
Verification development for the rust-developer chat repository
(ex17_web / ex18_metrics workspaces).

The Rust source is shallowly embedded:
* `Message` mirrors the `Message` enum of
  `ex18_metrics/ex18-shared/src/message.rs` (declaration order
  File, Image, Text, Login, Signup, Passwd, Quit).  String fields are
  modelled by their UTF-8 byte sequences (`List Nat`), byte-vector
  fields by `List Nat`.
* `serializeMessage` / `deserializeMessage` model the bincode 1.x
  default encoding used by `MessageTcpStream::send_message` /
  `read_next_message`: little-endian, fixed-width integers, a `u32`
  variant index in declaration order, strings and byte vectors as a
  `u64` length followed by the bytes, strings additionally required to
  be valid UTF-8 on decode.
-/

namespace Chat

/-- The `Message` enum from `ex18-shared/src/message.rs`, in source
declaration order.  Rust `String` fields are modelled as their UTF-8
byte lists, `Vec<u8>` fields as `List Nat`. -/
inductive Message where
  | file (name : List Nat) (content : List Nat)
  | image (content : List Nat)
  | text (s : List Nat)
  | login (user : List Nat) (pass : List Nat)
  | signup (user : List Nat) (pass : List Nat)
  | passwd (pass : List Nat)
  | quit
  deriving DecidableEq, Repr

/-- Little-endian value of a byte list (least significant byte first). -/
def leVal : List Nat → Nat
  | [] => 0
  | b :: r => b + 256 * leVal r

/-- The 4 little-endian bytes of `n` (mod 2^32), as written by
`u32::to_le_bytes`. -/
def u32le (n : Nat) : List Nat :=
  [n % 256, n / 256 % 256, n / 256 ^ 2 % 256, n / 256 ^ 3 % 256]

/-- The 8 little-endian bytes of `n` (mod 2^64), as written by
bincode for a `u64` length. -/
def u64le (n : Nat) : List Nat :=
  [n % 256, n / 256 % 256, n / 256 ^ 2 % 256, n / 256 ^ 3 % 256,
   n / 256 ^ 4 % 256, n / 256 ^ 5 % 256, n / 256 ^ 6 % 256, n / 256 ^ 7 % 256]

/-- Is `b` a UTF-8 continuation byte (`0x80 ..= 0xBF`)? -/
def isCont (b : Nat) : Bool := 0x80 ≤ b ∧ b ≤ 0xBF

/-- UTF-8 validity of a byte sequence, as enforced by Rust's
`str::from_utf8` (which bincode applies when deserializing a
`String`). -/
def utf8Valid : List Nat → Bool
  | [] => true
  | b :: r =>
    if b < 0x80 then utf8Valid r
    else if 0xC2 ≤ b ∧ b ≤ 0xDF then
      match r with
      | c1 :: r1 => isCont c1 && utf8Valid r1
      | [] => false
    else if b = 0xE0 then
      match r with
      | c1 :: c2 :: r2 => (0xA0 ≤ c1 ∧ c1 ≤ 0xBF : Bool) && isCont c2 && utf8Valid r2
      | _ => false
    else if (0xE1 ≤ b ∧ b ≤ 0xEC) ∨ b = 0xEE ∨ b = 0xEF then
      match r with
      | c1 :: c2 :: r2 => isCont c1 && isCont c2 && utf8Valid r2
      | _ => false
    else if b = 0xED then
      match r with
      | c1 :: c2 :: r2 => (0x80 ≤ c1 ∧ c1 ≤ 0x9F : Bool) && isCont c2 && utf8Valid r2
      | _ => false
    else if b = 0xF0 then
      match r with
      | c1 :: c2 :: c3 :: r3 =>
        (0x90 ≤ c1 ∧ c1 ≤ 0xBF : Bool) && isCont c2 && isCont c3 && utf8Valid r3
      | _ => false
    else if 0xF1 ≤ b ∧ b ≤ 0xF3 then
      match r with
      | c1 :: c2 :: c3 :: r3 => isCont c1 && isCont c2 && isCont c3 && utf8Valid r3
      | _ => false
    else if b = 0xF4 then
      match r with
      | c1 :: c2 :: c3 :: r3 =>
        (0x80 ≤ c1 ∧ c1 ≤ 0x8F : Bool) && isCont c2 && isCont c3 && utf8Valid r3
      | _ => false
    else false

/-- bincode encoding of a byte-vector field: u64LE length, then the
bytes. -/
def writeBytesField (b : List Nat) : List Nat := u64le b.length ++ b

/-- The bincode variant index of a `Message`, following the source
declaration order of the enum. -/
def variantIndex : Message → Nat
  | .file _ _ => 0
  | .image _ => 1
  | .text _ => 2
  | .login _ _ => 3
  | .signup _ _ => 4
  | .passwd _ => 5
  | .quit => 6

/-- Model of `bincode::serialize` applied to a `Message` (the payload
bytes written by `MessageTcpStream::send_message`): a u32LE variant
index in declaration order, then each field length-prefixed. -/
def serializeMessage : Message → List Nat
  | .file name content => u32le 0 ++ writeBytesField name ++ writeBytesField content
  | .image content => u32le 1 ++ writeBytesField content
  | .text s => u32le 2 ++ writeBytesField s
  | .login user pass => u32le 3 ++ writeBytesField user ++ writeBytesField pass
  | .signup user pass => u32le 4 ++ writeBytesField user ++ writeBytesField pass
  | .passwd pass => u32le 5 ++ writeBytesField pass
  | .quit => u32le 6

/-- Read exactly `n` bytes from the front of `l`. -/
def readN (n : Nat) (l : List Nat) : Option (List Nat × List Nat) :=
  if n ≤ l.length then some (l.take n, l.drop n) else none

/-- Read a u64LE length prefix. -/
def readU64 (l : List Nat) : Option (Nat × List Nat) :=
  match readN 8 l with
  | some (bs, r) => some (leVal bs, r)
  | none => none

/-- bincode decoding of a byte-vector field. -/
def readBytesField (l : List Nat) : Option (List Nat × List Nat) :=
  match readU64 l with
  | some (n, r) => readN n r
  | none => none

/-- bincode decoding of a string field: a byte-vector field whose
bytes must be valid UTF-8. -/
def readStringField (l : List Nat) : Option (List Nat × List Nat) :=
  match readBytesField l with
  | some (s, r) => if utf8Valid s then some (s, r) else none
  | none => none

/-- Model of `bincode::deserialize::<Message>` (as called by
`MessageTcpStream::read_next_message`): reads a u32LE variant index
and the variant's fields; trailing bytes are returned unconsumed
(bincode's `deserialize` ignores them). -/
def deserializeMessage (l : List Nat) : Option (Message × List Nat) :=
  match readN 4 l with
  | none => none
  | some (tagBytes, r) =>
    match leVal tagBytes with
    | 0 =>
      match readStringField r with
      | some (name, r1) =>
        match readBytesField r1 with
        | some (content, r2) => some (.file name content, r2)
        | none => none
      | none => none
    | 1 =>
      match readBytesField r with
      | some (content, r1) => some (.image content, r1)
      | none => none
    | 2 =>
      match readStringField r with
      | some (s, r1) => some (.text s, r1)
      | none => none
    | 3 =>
      match readStringField r with
      | some (user, r1) =>
        match readStringField r1 with
        | some (pass, r2) => some (.login user pass, r2)
        | none => none
      | none => none
    | 4 =>
      match readStringField r with
      | some (user, r1) =>
        match readStringField r1 with
        | some (pass, r2) => some (.signup user pass, r2)
        | none => none
      | none => none
    | 5 =>
      match readStringField r with
      | some (pass, r1) => some (.passwd pass, r1)
      | none => none
    | 6 => some (.quit, r)
    | _ => none

/-- Well-formedness of a byte-vector field as a Rust `Vec<u8>`: its
length fits in a `u64` (it is a `usize`) and its entries are bytes. -/
def WfBytes (b : List Nat) : Prop := b.length < 2 ^ 64 ∧ ∀ x ∈ b, x < 256

/-- Well-formedness of a string field as a Rust `String`: its UTF-8
byte length fits in a `u64` and the bytes are valid UTF-8. -/
def WfStr (s : List Nat) : Prop := s.length < 2 ^ 64 ∧ utf8Valid s = true

/-- A `Message` value representable in the Rust program: every string
field is the UTF-8 byte sequence of a Rust `String`, every byte field
a Rust `Vec<u8>`. -/
def WfMessage : Message → Prop
  | .file name content => WfStr name ∧ WfBytes content
  | .image content => WfBytes content
  | .text s => WfStr s
  | .login user pass => WfStr user ∧ WfStr pass
  | .signup user pass => WfStr user ∧ WfStr pass
  | .passwd pass => WfStr pass
  | .quit => True

instance : DecidablePred WfBytes := by
  intro b; unfold WfBytes; infer_instance

instance : DecidablePred WfStr := by
  intro s; unfold WfStr; infer_instance

instance : DecidablePred WfMessage := by
  intro m; cases m <;> { unfold WfMessage; infer_instance }

theorem u64le_length (n : Nat) : (u64le n).length = 8 := by
  simp [u64le]

theorem readN_append (n : Nat) (l r : List Nat) (h : l.length = n) :
    readN n (l ++ r) = some (l, r) := by
  subst h
  simp [readN, List.take_left, List.drop_left]

theorem leVal_u64le (n : Nat) : leVal (u64le n) = n % 2 ^ 64 := by
  simp only [u64le, leVal]
  omega

theorem readU64_append (n : Nat) (r : List Nat) :
    readU64 (u64le n ++ r) = some (n % 2 ^ 64, r) := by
  rw [readU64, readN_append 8 (u64le n) r (u64le_length n)]
  show some (leVal (u64le n), r) = some (n % 2 ^ 64, r)
  rw [leVal_u64le]

theorem readBytesField_append (b r : List Nat) (h : b.length < 2 ^ 64) :
    readBytesField (writeBytesField b ++ r) = some (b, r) := by
  rw [writeBytesField, List.append_assoc, readBytesField, readU64_append]
  show readN (b.length % 2 ^ 64) (b ++ r) = some (b, r)
  rw [Nat.mod_eq_of_lt h]
  exact readN_append b.length b r rfl

theorem readBytesField_nil (b : List Nat) (h : b.length < 2 ^ 64) :
    readBytesField (writeBytesField b) = some (b, []) := by
  rw [← List.append_nil (writeBytesField b)]
  exact readBytesField_append b [] h

theorem readStringField_append (s r : List Nat) (h : WfStr s) :
    readStringField (writeBytesField s ++ r) = some (s, r) := by
  rw [readStringField, readBytesField_append s r h.1]
  show (if utf8Valid s = true then some (s, r) else none) = some (s, r)
  rw [h.2]
  simp

theorem readStringField_nil (s : List Nat) (h : WfStr s) :
    readStringField (writeBytesField s) = some (s, []) := by
  rw [← List.append_nil (writeBytesField s)]
  exact readStringField_append s [] h

theorem readN4_u32le (t : Nat) (r : List Nat) :
    readN 4 (u32le t ++ r) = some (u32le t, r) :=
  readN_append 4 (u32le t) r (by simp [u32le])

theorem leVal_u32le (t : Nat) (h : t < 2 ^ 32) : leVal (u32le t) = t := by
  simp only [u32le, leVal]
  omega

/-- C1: for every `Message` value `m` representable in the Rust
program, decoding the bincode payload produced by encoding `m` (the
payload written by `send_message` and decoded by
`read_next_message`) yields `m` exactly, consuming all the bytes.
This covers all seven variants, with string and byte-vector fields of
arbitrary length including 0. -/
theorem deserialize_serialize_roundtrip (m : Message) (h : WfMessage m) :
    deserializeMessage (serializeMessage m) = some (m, []) := by
  cases m with
  | file name content =>
    obtain ⟨hn, hc⟩ := h
    simp only [serializeMessage, List.append_assoc]
    rw [deserializeMessage, readN4_u32le]
    simp only [leVal_u32le 0 (by norm_num), readStringField_append name _ hn,
      readBytesField_nil content hc.1]
  | image content =>
    simp only [serializeMessage, List.append_assoc]
    rw [deserializeMessage, readN4_u32le]
    simp only [leVal_u32le 1 (by norm_num), readBytesField_nil content h.1]
  | text s =>
    simp only [serializeMessage, List.append_assoc]
    rw [deserializeMessage, readN4_u32le]
    simp only [leVal_u32le 2 (by norm_num), readStringField_nil s h]
  | login user pass =>
    obtain ⟨hu, hp⟩ := h
    simp only [serializeMessage, List.append_assoc]
    rw [deserializeMessage, readN4_u32le]
    simp only [leVal_u32le 3 (by norm_num), readStringField_append user _ hu,
      readStringField_nil pass hp]
  | signup user pass =>
    obtain ⟨hu, hp⟩ := h
    simp only [serializeMessage, List.append_assoc]
    rw [deserializeMessage, readN4_u32le]
    simp only [leVal_u32le 4 (by norm_num), readStringField_append user _ hu,
      readStringField_nil pass hp]
  | passwd pass =>
    simp only [serializeMessage, List.append_assoc]
    rw [deserializeMessage, readN4_u32le]
    simp only [leVal_u32le 5 (by norm_num), readStringField_nil pass h]
  | quit =>
    rw [serializeMessage, ← List.append_nil (u32le 6), deserializeMessage, readN4_u32le]
    simp only [leVal_u32le 6 (by norm_num)]

/-- Witness for C1: the round trip evaluated at a concrete `Login`
message. -/
theorem deserialize_serialize_roundtrip_witness :
    deserializeMessage (serializeMessage (.login [0x61, 0x62] [])) =
      some (.login [0x61, 0x62] [], []) :=
  deserialize_serialize_roundtrip (.login [0x61, 0x62] []) (by decide)

/-- C4 counterexample: the claim assigns variant index 0 to
`Text`, but the source enum declares `File, Image, Text, ...`, so the
payload of a `Text` message begins with the u32LE index 2, not 0. -/
theorem text_variant_index_is_two_not_zero :
    (serializeMessage (.text [])).take 4 = u32le 2 ∧
      (serializeMessage (.text [])).take 4 ≠ u32le 0 := by
  decide

/-- C4 amended: every serialized payload begins with a 32-bit
little-endian variant index assigned in the declaration order of the
source enum — File = 0, Image = 1, Text = 2, Login = 3, Signup = 4,
Passwd = 5, Quit = 6 — followed by the variant's fields, strings and
byte vectors encoded as a u64LE length plus the bytes. -/
theorem serialize_layout (m : Message) :
    serializeMessage m =
      u32le (variantIndex m) ++
        (match m with
         | .file name content => writeBytesField name ++ writeBytesField content
         | .image content => writeBytesField content
         | .text s => writeBytesField s
         | .login user pass => writeBytesField user ++ writeBytesField pass
         | .signup user pass => writeBytesField user ++ writeBytesField pass
         | .passwd pass => writeBytesField pass
         | .quit => []) := by
  cases m <;> simp [serializeMessage, variantIndex]

/-!
## The framing layer: `MessageTcpStream` (ex17-shared)

`readNextMessage`, `readLoop` and `sendMessageBytes` model
`MessageTcpStream::read_next_message`, `read_next_n_bytes` and
`send_message`.  The TCP stream is modelled as the list of bytes the
peer has written before closing; a read schedule (one entry per
`read` call) gives the number of bytes the OS chooses to deliver for
that call, capped by the buffer length and by the bytes remaining.
An exhausted schedule models a run we do not observe further and is
returned as `none`.
-/

/-- Errors of `MessageTcpStreamError` reachable in the byte-level
model (`IOError` carries no data here because the model has no OS). -/
inductive StreamError where
  | incorrectTransmitByteCount (expected got : Nat)
  | serdeError
  deriving DecidableEq, Repr

/-- Result of one `read_next_message` call: `ok none` is the `N == 0`
heartbeat frame, `ok (some m)` a decoded message. -/
inductive ReadResult where
  | ok (m : Option Message)
  | err (e : StreamError)
  deriving DecidableEq, Repr

/-- The loop of `MessageTcpStream::read_next_n_bytes`: a buffer
`vec![0u8; n]` wrapped in a `Cursor`, and `read(&mut cursor.get_mut())`
repeated while fewer than `n` total bytes were read.  Each `read`
writes the delivered bytes at the START of the buffer (the code reads
into the whole underlying `Vec`, not at the cursor position), keeps
the rest, and adds the delivered count to `total`.  Returns the final
buffer, the remaining stream and the remaining schedule. -/
def readLoop (n : Nat) (buf : List Nat) (total : Nat) (sched : List Nat)
    (s : List Nat) : Option (List Nat × List Nat × List Nat) :=
  if total < n then
    match sched with
    | [] => none
    | k :: ks =>
      let d := min k (min n s.length)
      readLoop n (s.take d ++ buf.drop d) (total + d) ks (s.drop d)
  else
    some (buf, s, sched)

/-- Model of `MessageTcpStream::read_next_n_bytes(n)` on stream `s` under read
schedule `sched`. -/
def readNextNBytes (n : Nat) (sched : List Nat) (s : List Nat) :
    Option (List Nat × List Nat × List Nat) :=
  readLoop n (List.replicate n 0) 0 sched s

/-- Model of `MessageTcpStream::read_next_message` on stream `s` under read
schedule `sched`: one `read` into the 4-byte size buffer (an
incomplete size read is `IncorrectTransmitByteCountError`), then for a
nonzero little-endian size `N` the `read_next_n_bytes` loop followed
by `bincode::deserialize`. -/
def readNextMessage (sched : List Nat) (s : List Nat) :
    Option (ReadResult × List Nat × List Nat) :=
  match sched with
  | [] => none
  | k :: ks =>
    let d := min k (min 4 s.length)
    if d ≠ 4 then some (.err (.incorrectTransmitByteCount 4 d), s.drop d, ks)
    else
      let n := leVal (s.take 4)
      if n = 0 then some (.ok none, s.drop 4, ks)
      else
        match readNextNBytes n ks (s.drop 4) with
        | none => none
        | some (buf, s2, ks2) =>
          match deserializeMessage buf with
          | some (m, _) => some (.ok (some m), s2, ks2)
          | none => some (.err .serdeError, s2, ks2)

/-- The bytes `MessageTcpStream::send_message` writes on the wire for
one message: a u32LE length prefix (the payload length truncated to
`u32`, as by `vec.len() as u32`) followed by the payload. -/
def sendMessageBytes (m : Message) : List Nat :=
  u32le ((serializeMessage m).length % 2 ^ 32) ++ serializeMessage m

/-- C2: `read_next_n_bytes` does not place later chunks after the
previously read bytes: every `read` call writes at the start of the
buffer.  For the 4-byte frame carrying `Quit` (`[6,0,0,0]`), a body
delivered in two 2-byte reads leaves the buffer `[0,0,0,0]` and
decoding fails with a serde error, while the same frame delivered in
one read decodes to `Quit`; at the raw level, reading 2 bytes `[7,8]`
as two 1-byte chunks returns `[8,0]` instead of `[7,8]`. -/
theorem read_next_n_bytes_overwrites_buffer_start :
    readNextMessage [4, 2, 2] (sendMessageBytes .quit) =
        some (.err .serdeError, [], []) ∧
      readNextMessage [4, 4] (sendMessageBytes .quit) =
        some (.ok (some .quit), [], []) ∧
      readNextNBytes 2 [1, 1] [7, 8] = some ([8, 0], [], []) := by
  decide

/-- C3: after the frames written before the peer closed are
consumed, the next `read_next_message` call does not signal
end-of-stream: the length-prefix `read` returns 0 bytes and the code
returns `IncorrectTransmitByteCountError(4, 0)` — an error.  Shown
for k = 1: the single `Quit` frame is produced in order, then the
call on the closed (empty) stream returns the error. -/
theorem read_next_message_on_closed_stream_errors :
    readNextMessage [4, 4] (sendMessageBytes .quit) =
        some (.ok (some .quit), [], []) ∧
      readNextMessage [4] [] =
        some (.err (.incorrectTransmitByteCount 4 0), [], []) := by
  decide

/-!
## The command parser: `Message::from_str` (ex18-shared)

The two regexes of the source are

  REGEX_COMPLEX = `^\.(\S+) (\S+ )?(\S+)$`
  REGEX_SIMPLE  = `^\.(\S+)$`

modelled on `List Char` by `matchComplex` / `matchSimple`: a `\S+`
capture is a maximal nonempty run of non-whitespace characters and
the separators are literal spaces.  The filesystem read of
`buf_from_file` is a parameter `fs` from path to file bytes. -/

/-- The regex-crate `\s` class (Unicode White_Space). -/
def isWsChar (c : Char) : Bool :=
  let n := c.toNat
  (0x09 ≤ n ∧ n ≤ 0x0D) ∨ n = 0x20 ∨ n = 0x85 ∨ n = 0xA0 ∨ n = 0x1680 ∨
    (0x2000 ≤ n ∧ n ≤ 0x200A) ∨ n = 0x2028 ∨ n = 0x2029 ∨ n = 0x202F ∨
    n = 0x205F ∨ n = 0x3000

/-- UTF-8 bytes of one character (what `str::as_bytes` holds for it). -/
def utf8EncodeCharNat (c : Char) : List Nat :=
  let n := c.toNat
  if n < 0x80 then [n]
  else if n < 0x800 then [0xC0 + n / 64, 0x80 + n % 64]
  else if n < 0x10000 then [0xE0 + n / 4096, 0x80 + n / 64 % 64, 0x80 + n % 64]
  else [0xF0 + n / 262144, 0x80 + n / 4096 % 64, 0x80 + n / 64 % 64, 0x80 + n % 64]

/-- UTF-8 byte sequence of a character list (a Rust `String`). -/
def strBytes (cs : List Char) : List Nat :=
  cs.foldr (fun c acc => utf8EncodeCharNat c ++ acc) []

/-- Match of `REGEX_COMPLEX` on a line: returns the three captures
(keyword, optional middle token with its trailing space already
trimmed as the source does, last token). -/
def matchComplex (cs : List Char) : Option (List Char × Option (List Char) × List Char) :=
  match cs with
  | '.' :: rest =>
    let t1 := rest.takeWhile (fun c => !isWsChar c)
    if t1 = [] then none
    else
      match rest.drop t1.length with
      | ' ' :: r2 =>
        if r2 ≠ [] ∧ r2.all (fun c => !isWsChar c) then some (t1, none, r2)
        else
          let t2 := r2.takeWhile (fun c => !isWsChar c)
          if t2 = [] then none
          else
            match r2.drop t2.length with
            | ' ' :: r4 =>
              if r4 ≠ [] ∧ r4.all (fun c => !isWsChar c) then some (t1, some t2, r4)
              else none
            | _ => none
      | _ => none
  | _ => none

/-- Match of `REGEX_SIMPLE` on a line: the single capture. -/
def matchSimple (cs : List Char) : Option (List Char) :=
  match cs with
  | '.' :: rest =>
    if rest ≠ [] ∧ rest.all (fun c => !isWsChar c) then some rest else none
  | _ => none

/-- The distinct parse failures of `Message::from_str`, one
constructor per `bail!`~/~`context` site. -/
inductive ParseErr where
  | fileError (path : List Char)
  | loginNeedsTwoArgs
  | signupUsage
  | passwdNeedsTwoArgs
  | passwordsMismatch
  | unknownCommand
  deriving DecidableEq, Repr

/-- Model of `Message::from_str` from `ex18-shared/src/message.rs`.
`fs` maps a path to the bytes `buf_from_file` would read, `none`
standing for a filesystem error. -/
def fromStr (fs : List Char → Option (List Nat)) (line : List Char) :
    Except ParseErr Message :=
  match matchComplex line with
  | some (t1, opt2, arg) =>
    if t1 = ['f', 'i', 'l', 'e'] then
      match fs arg with
      | some buf => .ok (.file (strBytes arg) buf)
      | none => .error (.fileError arg)
    else if t1 = ['i', 'm', 'a', 'g', 'e'] then
      match fs arg with
      | some buf => .ok (.image buf)
      | none => .error (.fileError arg)
    else if t1 = ['l', 'o', 'g', 'i', 'n'] then
      match opt2 with
      | none => .error .loginNeedsTwoArgs
      | some u => .ok (.login (strBytes u) (strBytes arg))
    else if t1 = ['s', 'i', 'g', 'n', 'u', 'p'] then
      match opt2 with
      | none => .error .signupUsage
      | some u => .ok (.signup (strBytes u) (strBytes arg))
    else if t1 = ['p', 'a', 's', 's', 'w', 'd'] then
      match opt2 with
      | none => .error .passwdNeedsTwoArgs
      | some p1 => if p1 = arg then .ok (.passwd (strBytes arg)) else .error .passwordsMismatch
    else .ok (.text (strBytes arg))
  | none =>
    match matchSimple line with
    | some t => if t = ['q', 'u', 'i', 't'] then .ok .quit else .error .unknownCommand
    | none => .ok (.text (strBytes line))

/-- C6: for an unknown dotted command keyword the parser returns
a `ParseError` only in the one-token form.  In the three-token form
`.foo bar baz` it falls through to `Text("baz")` and in the two-token
form `.foo bar` to `Text("bar")`, silently discarding the other
tokens, contradicting the claimed uniform "unknown command" error. -/
theorem unknown_command_falls_through_to_text :
    fromStr (fun _ => none) ".foo bar baz".data = .ok (.text (strBytes "baz".data)) ∧
      fromStr (fun _ => none) ".foo bar".data = .ok (.text (strBytes "bar".data)) ∧
      fromStr (fun _ => none) ".foo".data = .error .unknownCommand :=
  ⟨rfl, rfl, rfl⟩

/-!
## The user store: `UserService` (ex18-server/src/users.rs)

The SQLite pool is modelled as the pure list of `users` rows; the
digest function `sha256::digest` of the external crate is an opaque
parameter `H` (the source computes `H(password ++ salt)` on the
UTF-8 concatenation and compares the lowercase-hex result with the
stored `password` column). -/

/-- A row of the `users` table (`DbUser` in the source).  `active` and
`admin` are the SQLite integer flags. -/
structure DbUser where
  id : String
  name : String
  active : Nat
  admin : Nat
  password : String
  salt : String
  deriving DecidableEq, Repr

/-- The public `User` struct returned by `UserService`. -/
structure User where
  id : String
  name : String
  isActive : Bool
  isAdmin : Bool
  deriving DecidableEq, Repr

/-- Model of `impl From<DbUser> for User` (flags nonzero become `true`). -/
def User.fromDb (u : DbUser) : User :=
  { id := u.id, name := u.name, isActive := u.active ≠ 0, isAdmin := u.admin ≠ 0 }

/-- The `UserError` variants reachable from `authenticate` in the
pure model (`Sql` does not occur: the model has no engine failures). -/
inductive UserErr where
  | noSuchUser (name : String)
  | userAlreadyExists (name : String)
  | authenticationFailed
  deriving DecidableEq, Repr

/-- Model of `UserService::get_passwd_digest`: the digest of
`format!("{password}{salt}")` under the digest function `H`
(`sha256::digest`, lowercase hex, of the external crate). -/
def getPasswdDigest (H : String → String) (passwd salt : String) : String :=
  H (passwd ++ salt)

/-- The `select ... from users where name=?` fetch of
`get_user_by_name`: the first row with the given name. -/
def getUserByName (db : List DbUser) (name : String) : Option DbUser :=
  db.find? (fun u => u.name = name)

/-- Model of `UserService::authenticate` over the rows of the `users`
table: fetch by name; absent means `AuthenticationFailed`; otherwise
succeed exactly when `active == 1` and the stored digest equals
`H(password ++ salt)`, and fail with the same
`AuthenticationFailed` otherwise. -/
def authenticate (H : String → String) (db : List DbUser) (username password : String) :
    Except UserErr User :=
  match getUserByName db username with
  | none => .error .authenticationFailed
  | some dbUser =>
    if dbUser.active = 1 ∧ dbUser.password = getPasswdDigest H password dbUser.salt then
      .ok (User.fromDb dbUser)
    else .error .authenticationFailed

/-!
## The session loop: `UserSession` (ex17-server/src/server.rs)

Socket addresses are modelled as `Nat`.  Database rows inserted,
broadcast envelopes delivered, and `Text` replies written to the
session's own socket are collected as lists; the outcome records
whether the `select!` loop continues, the function returns an error
(which `run` propagates with `?`, ending the session), or the task
panics (the `unwrap()` on the broadcast `recv`). -/

/-- UTF-8 bytes of a string literal. -/
def litBytes (s : String) : List Nat := strBytes s.data

/-- The display rendering of `save_user_message`: `Some` for the
persisted variants, `None` for the variants it does not persist. -/
def renderMessage : Message → Option (List Nat)
  | .file name _ => some (litBytes "[Shared file " ++ name ++ litBytes "]")
  | .image _ => some (litBytes "[Shared an image]")
  | .text t => some t
  | _ => none

/-- A `user_messages` row as inserted by `save_user_message`
(the fresh UUID id and the timestamp are outside the model). -/
structure HistoryRow where
  authorId : String
  message : List Nat
  deriving DecidableEq, Repr

/-- The `BroadcastMessage` envelope published on the tokio broadcast
channel. -/
structure BroadcastMessage where
  fromAddr : Nat
  message : Message
  deriving DecidableEq, Repr

/-- Whether the processing function returns `Ok` (the `select!` loop
continues) or `Err` (which `run` propagates with `?`, ending the
session task). -/
inductive SessionStep where
  | continueSession
  | fatal
  deriving DecidableEq, Repr

/-- Observable effects of one
`process_message_from_authenticated_client` call. -/
structure AuthStepResult where
  inserted : List HistoryRow
  published : List BroadcastMessage
  replies : List Message
  step : SessionStep
  deriving DecidableEq, Repr

/-- The `Text` reply written by `send_text_reply`. -/
def textReply (s : String) : Message := .text (litBytes s)

/-- Model of `UserSession::process_message_from_authenticated_client`.
`saveOk` is whether the `save_user_message` insert succeeds, `sendOk`
whether `broadcaster.send` finds at least one receiver, `pwOk`
whether `change_password` succeeds; each failure is returned as an
error, which `run` propagates (`.fatal`). -/
def processMessageFromAuthenticatedClient (user : User) (socketAddr : Nat)
    (saveOk sendOk pwOk : Bool) (message : Message) : AuthStepResult :=
  match message with
  | .login _ _ =>
    { inserted := [], published := [], replies := [textReply "Already logged in!"],
      step := .continueSession }
  | .signup _ _ =>
    { inserted := [], published := [], replies := [textReply "Already logged in!"],
      step := .continueSession }
  | .passwd _ =>
    if pwOk then
      { inserted := [], published := [],
        replies := [textReply "Password updated successfully"], step := .continueSession }
    else
      { inserted := [], published := [], replies := [], step := .fatal }
  | other =>
    match renderMessage other with
    | some rendered =>
      if saveOk then
        if sendOk then
          { inserted := [⟨user.id, rendered⟩],
            published := [⟨socketAddr, other⟩], replies := [], step := .continueSession }
        else
          { inserted := [⟨user.id, rendered⟩], published := [], replies := [],
            step := .fatal }
      else
        { inserted := [], published := [], replies := [], step := .fatal }
    | none =>
      if sendOk then
        { inserted := [], published := [⟨socketAddr, other⟩], replies := [],
          step := .continueSession }
      else
        { inserted := [], published := [], replies := [], step := .fatal }

/-- The three outcomes of the broadcast `recv` in the `select!` of
`UserSession::run`. -/
inductive RecvResult where
  | ok (env : BroadcastMessage)
  | lagged
  | closed
  deriving DecidableEq, Repr

/-- Outcome of the broadcast arm of the `select!` in
`UserSession::run`: the `unwrap()` panics on a `recv` error;
otherwise the arm writes the listed messages to the session's socket
and the loop continues. -/
inductive BroadcastArmOutcome where
  | panicked
  | continueWith (sent : List Message)
  deriving DecidableEq, Repr

/-- Model of the broadcast arm of the `select!` in
`UserSession::run`: `broadcast_sub.recv()` is unwrapped, then the
envelope is forwarded iff it comes from a different address and the
session has a logged user. -/
def handleBroadcastArm (loggedUser : Option User) (socketAddr : Nat)
    (r : RecvResult) : BroadcastArmOutcome :=
  match r with
  | .lagged => .panicked
  | .closed => .panicked
  | .ok env =>
    if socketAddr ≠ env.fromAddr ∧ loggedUser.isSome then .continueWith [env.message]
    else .continueWith []

/-- A concrete authenticated user used by the closed theorems. -/
def demoUser : User := { id := "u1", name := "alice", isActive := true, isAdmin := false }

theorem authenticate_eq_of_none (H : String → String) {db : List DbUser}
    {username : String} (password : String)
    (hf : getUserByName db username = none) :
    authenticate H db username password = .error .authenticationFailed := by
  unfold authenticate
  rw [hf]

theorem authenticate_eq_of_some (H : String → String) {db : List DbUser}
    {username : String} (password : String) (dbu : DbUser)
    (hf : getUserByName db username = some dbu) :
    authenticate H db username password =
      if dbu.active = 1 ∧ dbu.password = getPasswdDigest H password dbu.salt
      then .ok (User.fromDb dbu) else .error .authenticationFailed := by
  unfold authenticate
  rw [hf]

/-- C5: `authenticate(name, password)` returns a user exactly
when a row with that name exists, has `active == 1`, and stores the
digest `H(password ++ salt)` (with `H` the lowercase-hex sha256 of
the external crate), and the returned user is that row; every failing
case — absent user, wrong digest, or inactive user — returns the one
`AuthenticationFailed` error, so the result does not distinguish an
absent user from a wrong password. -/
theorem authenticate_characterization (H : String → String) (db : List DbUser)
    (username password : String) :
    (∀ u, authenticate H db username password = .ok u ↔
      ∃ dbUser, getUserByName db username = some dbUser ∧ dbUser.active = 1 ∧
        dbUser.password = getPasswdDigest H password dbUser.salt ∧
        u = User.fromDb dbUser) ∧
    (∀ e, authenticate H db username password = .error e →
      e = .authenticationFailed) := by
  cases hf : getUserByName db username with
  | none =>
    rw [authenticate_eq_of_none H password hf]
    refine ⟨fun u => ?_, fun e he => ?_⟩
    · constructor
      · intro h
        exact absurd h (by simp)
      · rintro ⟨dbu2, hfind2, -, -, -⟩
        exact absurd hfind2 (by simp)
    · injection he with h1
      exact h1.symm
  | some dbu =>
    rw [authenticate_eq_of_some H password dbu hf]
    by_cases hc : dbu.active = 1 ∧ dbu.password = getPasswdDigest H password dbu.salt
    · rw [if_pos hc]
      refine ⟨fun u => ?_, fun e he => ?_⟩
      · constructor
        · intro h
          injection h with h1
          exact ⟨dbu, rfl, hc.1, hc.2, h1.symm⟩
        · rintro ⟨dbu2, hfind2, ha2, hp2, hu2⟩
          injection hfind2 with h2
          subst h2
          rw [hu2]
      · exact absurd he (by simp)
    · rw [if_neg hc]
      refine ⟨fun u => ?_, fun e he => ?_⟩
      · constructor
        · intro h
          exact absurd h (by simp)
        · rintro ⟨dbu2, hfind2, ha2, hp2, hu2⟩
          injection hfind2 with h2
          subst h2
          exact absurd ⟨ha2, hp2⟩ hc
      · injection he with h1
        exact h1.symm

/-- A concrete `users` row used by the C5 witness. -/
def demoDbUser : DbUser :=
  { id := "u1", name := "alice", active := 1, admin := 0, password := "pwS", salt := "S" }

/-- Witness for C5: with the digest function instantiated to string
identity, authenticating `alice` with password `pw` against a
single-row table succeeds with that row's user. -/
theorem authenticate_characterization_witness :
    authenticate (fun s => s) [demoDbUser] "alice" "pw" = .ok (User.fromDb demoDbUser) :=
  ((authenticate_characterization (fun s => s) [demoDbUser] "alice" "pw").1
    (User.fromDb demoDbUser)).2 ⟨demoDbUser, rfl, rfl, rfl, rfl⟩

/-- C7 counterexample: an authenticated session receiving
`Quit` (with the broadcast publish succeeding, as it always does
while the session's own subscription lives) does not end: the
processing falls into the generic data-message branch, which returns
`Ok`, so the `select!` loop continues; no history row is inserted,
but a broadcast envelope carrying the `Quit` is published. -/
theorem quit_is_broadcast_and_session_continues :
    processMessageFromAuthenticatedClient demoUser 7 true true true .quit =
      { inserted := [], published := [⟨7, .quit⟩], replies := [],
        step := .continueSession } ∧
      ([⟨7, .quit⟩] : List BroadcastMessage) ≠ [] := by
  constructor
  · rfl
  · simp

/-- C7 amended: on an inbound `Quit` in the authenticated
state, no history row is inserted (`save_user_message` renders `Quit`
to nothing), but the session does not end normally: the `Quit` is
handed to the broadcast publish like a data message, and when the
publish succeeds the session loop simply continues (when it fails,
the error ends the session abnormally). -/
theorem quit_step_characterization (user : User) (socketAddr : Nat)
    (saveOk sendOk pwOk : Bool) :
    processMessageFromAuthenticatedClient user socketAddr saveOk sendOk pwOk .quit =
      { inserted := [],
        published := if sendOk then [⟨socketAddr, .quit⟩] else [],
        replies := [],
        step := if sendOk then .continueSession else .fatal } := by
  cases sendOk <;> rfl

/-- C8 counterexample: when the broadcast publish of an
authenticated `Text` message fails, the already-persisted history row
remains, but the session does not continue: the publish error is
returned and `run` propagates it, ending the session. -/
theorem publish_failure_is_fatal :
    processMessageFromAuthenticatedClient demoUser 7 true false true (.text [104, 105]) =
      { inserted := [⟨"u1", [104, 105]⟩], published := [], replies := [],
        step := .fatal } ∧
      SessionStep.fatal ≠ SessionStep.continueSession := by
  constructor
  · rfl
  · simp

/-- C8 amended: for every authenticated `Text`, `File` or
`Image` message (the variants `save_user_message` renders), the
history insert completes before the broadcast publish is attempted:
the inserted row is present whether or not the publish succeeds.  A
publish failure, however, is fatal to the session — the error
propagates out of the loop — while a successful publish lets the
session continue. -/
theorem save_precedes_publish (user : User) (socketAddr : Nat) (sendOk pwOk : Bool)
    (message : Message) (rendered : List Nat)
    (h : renderMessage message = some rendered) :
    processMessageFromAuthenticatedClient user socketAddr true sendOk pwOk message =
      { inserted := [⟨user.id, rendered⟩],
        published := if sendOk then [⟨socketAddr, message⟩] else [],
        replies := [],
        step := if sendOk then .continueSession else .fatal } := by
  cases message <;> simp [renderMessage] at h <;>
    cases sendOk <;> simp [processMessageFromAuthenticatedClient, renderMessage, ← h]

/-- Witness for C8 (amended): evaluated at a concrete `Text` message
with a failing publish. -/
theorem save_precedes_publish_witness :
    processMessageFromAuthenticatedClient demoUser 9 true false true (.text [104]) =
      { inserted := [⟨demoUser.id, [104]⟩], published := [], replies := [],
        step := .fatal } :=
  save_precedes_publish demoUser 9 false true (.text [104]) [104] rfl

theorem handleBroadcastArm_ok (loggedUser : Option User) (socketAddr : Nat)
    (env : BroadcastMessage) :
    handleBroadcastArm loggedUser socketAddr (.ok env) =
      if socketAddr ≠ env.fromAddr ∧ loggedUser.isSome = true
      then .continueWith [env.message] else .continueWith [] := rfl

/-- C9: the broadcast arm writes the received envelope's message
to the session's socket exactly when the session has a logged user
and the envelope's `from_addr` differs from the session's own
address; otherwise — unauthenticated session, or an envelope the
session itself originated — it writes nothing. -/
theorem broadcast_forward_exactly_when (loggedUser : Option User) (socketAddr : Nat)
    (env : BroadcastMessage) :
    (handleBroadcastArm loggedUser socketAddr (.ok env) = .continueWith [env.message] ↔
      loggedUser.isSome = true ∧ env.fromAddr ≠ socketAddr) ∧
    (loggedUser.isSome = false ∨ env.fromAddr = socketAddr →
      handleBroadcastArm loggedUser socketAddr (.ok env) = .continueWith []) := by
  rw [handleBroadcastArm_ok]
  by_cases hc : socketAddr ≠ env.fromAddr ∧ loggedUser.isSome = true
  · rw [if_pos hc]
    refine ⟨⟨fun _ => ⟨hc.2, fun he => hc.1 he.symm⟩, fun _ => rfl⟩, fun habs => ?_⟩
    rcases habs with h | h
    · rw [h] at hc
      exact absurd hc.2 (by simp)
    · exact absurd h.symm hc.1
  · rw [if_neg hc]
    refine ⟨⟨fun h => absurd h (by simp), fun hcond => ?_⟩, fun _ => rfl⟩
    exact absurd ⟨fun he => hcond.2 he.symm, hcond.1⟩ hc

/-- Witness for C9: an authenticated session forwards an envelope
from a different address, and an unauthenticated one forwards
nothing. -/
theorem broadcast_forward_exactly_when_witness :
    handleBroadcastArm (some demoUser) 1 (.ok ⟨2, .quit⟩) = .continueWith [.quit] ∧
      handleBroadcastArm none 1 (.ok ⟨2, .quit⟩) = .continueWith [] := by
  constructor
  · exact ((broadcast_forward_exactly_when (some demoUser) 1 ⟨2, .quit⟩).1).2
      ⟨rfl, by simp⟩
  · exact (broadcast_forward_exactly_when none 1 ⟨2, .quit⟩).2 (Or.inl rfl)

/-- C10: the session loop unwraps the result of the broadcast
`recv`, so both error outcomes — the subscription lagged because the
bounded queue dropped envelopes, or the channel closed — panic the
session task instead of letting it continue serving its client. -/
theorem recv_error_panics_session (loggedUser : Option User) (socketAddr : Nat) :
    handleBroadcastArm loggedUser socketAddr .lagged = .panicked ∧
      handleBroadcastArm loggedUser socketAddr .closed = .panicked ∧
      ∀ sent, BroadcastArmOutcome.panicked ≠ .continueWith sent := by
  refine ⟨rfl, rfl, fun sent => by simp⟩

end Chat
